import Mathlib

/-!
# Verification of the resumable batch-translation pipeline

Shallow embedding of `src/translator_legacy_fixed.py`: the tenacity-based
backoff retrier around `translate_text`, the pandas `combine_first`
checkpoint merge, the work-set selection, the per-row driver loop with its
sanitization and failure sentinels, and the startup checks of the script.

Python strings are modelled as Lean `String` (with `List Char` for the
character-level sanitization of `str.replace`), nullable cells as
`Option String`, and the fallible translator call as `Except Unit (Option String)`
(`.error` = exception after the retrier gave up, `.ok none` = structurally
empty API response, `.ok (some s)` = returned message content).
-/

namespace Translator

/-! ## Backoff retrier (tenacity)

`@retry(wait=wait_exponential(multiplier=1, min=4, max=60),
        stop=stop_after_attempt(5), retry=retry_if_exception_type(Exception),
        reraise=True)`

tenacity's `wait_exponential.__call__` computes
`max(max(0, min), min(multiplier * exp_base ** attempt_number, max))`
where `attempt_number` is the number of the attempt that just finished
(1-based); `stop_after_attempt(5)` stops once 5 attempts have run, and
`reraise=True` re-raises the final attempt's exception unchanged.
-/

/-- Wait (in seconds) computed by tenacity's `wait_exponential` after
attempt number `n` (1-based), for the decorator's actual arguments
`multiplier=1, exp_base=2, min=4, max=60`. -/
def waitExponential (multiplier minW maxW n : Nat) : Nat :=
  max minW (min (multiplier * 2 ^ n) maxW)

/-- The concrete wait schedule of `translate_text`'s decorator. -/
def translateWait (n : Nat) : Nat :=
  waitExponential 1 4 60 n

/-- Observable trace of one run of the retrying wrapper: the final outcome,
the sleeps performed between attempts, and how many times the wrapped unit
of work was invoked. -/
structure RetryTrace (E A : Type) where
  result : Except E A
  waits : List Nat
  calls : Nat

/-- One step of tenacity's retry loop: run attempt number `attempt` of `f`;
on success return; on failure, if `remaining = 0` further attempts are
forbidden by the stop condition, so the exception is re-raised
(`reraise=True`); otherwise sleep `translateWait attempt` and continue. -/
def retryAux {E A : Type} (f : Nat → Except E A) : Nat → Nat → RetryTrace E A
  | attempt, 0 =>
    { result := f attempt, waits := [], calls := 1 }
  | attempt, remaining + 1 =>
    match f attempt with
    | Except.ok a => { result := Except.ok a, waits := [], calls := 1 }
    | Except.error _ =>
      let t := retryAux f (attempt + 1) remaining
      { result := t.result, waits := translateWait attempt :: t.waits,
        calls := t.calls + 1 }

/-- The retrier wrapped around `translate_text`: `stop_after_attempt(5)`
means attempt 1 plus at most 4 further attempts. -/
def runRetry {E A : Type} (f : Nat → Except E A) : RetryTrace E A :=
  retryAux f 1 4

/-! ## Data model

`Row` is one record of the in-memory pandas frame `df`: the source columns
`title`, `abstract` and the translated columns `title_cn`, `cn_abstract`
(lines 81–84 create missing translated columns as all-null). `none` models
a null/NaN cell. `CkRow` is the part of a persisted `result.csv` row that
takes part in the checkpoint merge (a checkpoint missing a tracked column
is a checkpoint whose rows are all-`none` in that field). Both `df` and
`df_existing` are produced by `read_csv` and carry the default positional
`RangeIndex` (the output is written with `index=False`), so a table is a
list indexed by position. -/

structure Row where
  title : Option String
  abstract : Option String
  title_cn : Option String
  cn_abstract : Option String
deriving Repr, DecidableEq

structure CkRow where
  title_cn : Option String
  cn_abstract : Option String
deriving Repr, DecidableEq

/-- pandas `Series.combine_first` at one aligned label: keep the fresh
value unless it is null, else fall back to the other series' value. -/
def combine_first (fresh ck : Option String) : Option String :=
  match fresh with
  | some v => some v
  | none => ck

/-- Merge one fresh row with the checkpoint row aligned at the same label
(`none` when the checkpoint has no row at that label). -/
def mergeRow (r : Row) (oc : Option CkRow) : Row :=
  { r with
    title_cn := combine_first r.title_cn (oc.bind CkRow.title_cn),
    cn_abstract := combine_first r.cn_abstract (oc.bind CkRow.cn_abstract) }

/-- Checkpoint merge (lines 87–97):
`df[col] = df[col].combine_first(df_existing[col])` for each tracked
column. Alignment is by the positional `RangeIndex`, labels only one side
has are null on the other side, and the assignment back into `df` keeps
exactly `df`'s labels. -/
def mergeCheckpoint : List Row → List CkRow → List Row
  | [], _ => []
  | r :: rs, [] => mergeRow r none :: mergeCheckpoint rs []
  | r :: rs, c :: cs => mergeRow r (some c) :: mergeCheckpoint rs cs

/-- `fail_marker = "[翻译失败 (5次重试失败)]"` (line 125): written when the
retrier exhausts its budget and the exception reaches the driver. -/
def fail_marker : String := "[翻译失败 (5次重试失败)]"

/-- `"[标题翻译失败]"` (line 131): written when the title call succeeds but
returns a falsy (empty) result. -/
def titleEmptyMarker : String := "[标题翻译失败]"

/-- `"[摘要翻译失败]"` (line 147): abstract counterpart of the above. -/
def abstractEmptyMarker : String := "[摘要翻译失败]"

/-- The two prompt kinds of `translate_text` (line 34). -/
inductive TaskType where
  | title
  | abstract
deriving Repr, DecidableEq

/-- Outcome of one retrier-wrapped `translate_text` call as seen by the
driver loop: `.error ()` = exception after the retry budget was exhausted,
`.ok none` = structurally empty response, `.ok (some s)` = message content. -/
abbrev Stub := Nat → TaskType → Except Unit (Option String)

/-- Python truthiness of `translate_text`'s return value: `None` and the
empty string are falsy. -/
def truthy : Option String → Bool
  | none => false
  | some s => !(s == "")

/-- Python `str.replace(old, new)` on character lists: replace every
non-overlapping occurrence of `pat`, scanning left to right. (For the empty
pattern the driver never calls it; we return the string unchanged.) -/
def pyReplace (pat rep : List Char) : List Char → List Char
  | [] => []
  | c :: cs =>
    match pat with
    | [] => c :: cs
    | q :: qs =>
      if (q :: qs).isPrefixOf (c :: cs) then
        rep ++ pyReplace (q :: qs) rep (cs.drop qs.length)
      else
        c :: pyReplace (q :: qs) rep cs
termination_by s => s.length
decreasing_by
  · simp only [List.length_drop, List.length_cons]
    omega
  · simp only [List.length_cons]
    omega

/-- Line 144: `cn_res.replace('"', "'").replace('\n', ' ').replace(',', '，')`. -/
def sanitizeAbstract (s : String) : String :=
  String.mk (pyReplace [','] ['，']
    (pyReplace ['\n'] [' ']
      (pyReplace ['\"'] ['\''] s.data)))

/-- Character-wise statement of the sanitization policy, following the
spec's words: a double quote becomes a single quote, a newline a space, a
literal comma a full-width comma, and every other character is unchanged.
Stated separately from `sanitizeAbstract` (which embeds the source's chain
of `str.replace` calls) so the two can be compared. -/
def sanitizeChar (c : Char) : Char :=
  if c = '\"' then '\''
  else if c = '\n' then ' '
  else if c = ',' then '，'
  else c

/-- Process one work-set row (lines 118–152). The guards test the row
snapshot `row = df.loc[index]` taken at iteration start; writes go through
`df.at[index, col]`. Writing the title never touches the abstract columns,
so threading the updated row through is equivalent. -/
def processRow (stub : Stub) (i : Nat) (r : Row) : Row :=
  let r1 :=
    if r.title_cn = none ∧ r.title ≠ none then
      match stub i TaskType.title with
      | Except.error _ => { r with title_cn := some fail_marker }
      | Except.ok res =>
        let v := if truthy res then res.getD "" else titleEmptyMarker
        { r with title_cn := some v }
    else r
  if r.cn_abstract = none ∧ r.abstract ≠ none then
    match stub i TaskType.abstract with
    | Except.error _ => { r1 with cn_abstract := some fail_marker }
    | Except.ok res =>
      if truthy res then
        { r1 with cn_abstract := some (sanitizeAbstract (res.getD "")) }
      else
        { r1 with cn_abstract := some abstractEmptyMarker }
  else r1

/-- Line 101: a row is in the work set iff either translated column is null
(`df['cn_abstract'].isnull() | df['title_cn'].isnull()`). -/
def needsWork (r : Row) : Bool :=
  r.cn_abstract.isNone || r.title_cn.isNone

/-- `remaining_indices` starting from position `i`. -/
def workSetFrom : Nat → List Row → List Nat
  | _, [] => []
  | i, r :: rs =>
    if needsWork r then i :: workSetFrom (i + 1) rs
    else workSetFrom (i + 1) rs

/-- `remaining_indices` (line 101): positions of rows needing work, in
ascending order. -/
def workSet (t : List Row) : List Nat :=
  workSetFrom 0 t

/-- The translation loop body applied to rows from position `i` on. -/
def runRowsFrom (stub : Stub) : Nat → List Row → List Row
  | _, [] => []
  | i, r :: rs =>
    (if needsWork r then processRow stub i r else r) :: runRowsFrom stub (i + 1) rs

/-- The whole translation loop (lines 118–158): `remaining_indices` is
computed once before the loop and each iteration writes only its own row,
so the loop is an independent per-row update of the work-set rows. -/
def runRows (stub : Stub) (t : List Row) : List Row :=
  runRowsFrom stub 0 t

/-- The translated columns of a run's output, as persisted in `result.csv`
and re-read as the next run's checkpoint. -/
def toCheckpoint (t : List Row) : List CkRow :=
  t.map (fun r => { title_cn := r.title_cn, cn_abstract := r.cn_abstract })

/-- One pipeline run after startup: the freshly loaded source (translated
columns present, possibly null), merged with the checkpoint when one is
present, then the loop. -/
def runPipeline (stub : Stub) (source : List Row) (ck : Option (List CkRow)) :
    List Row :=
  runRows stub (match ck with
    | none => source
    | some c => mergeCheckpoint source c)

/-- The merged table the n-th re-run operates on: run 0 has no checkpoint;
run n+1 reloads the immutable source and merges the previous run's
persisted output. -/
def runInput (stub : Stub) (source : List Row) : Nat → List Row
  | 0 => source
  | n + 1 =>
    mergeCheckpoint source (toCheckpoint (runRows stub (runInput stub source n)))

/-- Process-level observables of one script invocation. -/
structure ScriptRun where
  exitCode : Nat
  tableLoaded : Bool
  output : Option (List Row)
deriving Repr, DecidableEq

/-- The script's control flow around `main`: the import-time token check
(lines 15–19) calls `exit(1)`; `main` prints an error and returns when the
input file is missing (lines 72–74), so the process finishes normally with
exit code 0 and nothing loaded, translated or written; with an empty work
set `main` returns before any write (lines 103–105); otherwise the loop
rewrites `result.csv` after every row, its final content being the final
table. -/
def runScript (tokenSet inputExists : Bool) (stub : Stub)
    (source : List Row) (ck : Option (List CkRow)) : ScriptRun :=
  if !tokenSet then
    { exitCode := 1, tableLoaded := false, output := none }
  else if !inputExists then
    { exitCode := 0, tableLoaded := false, output := none }
  else
    let df := match ck with
      | none => source
      | some c => mergeCheckpoint source c
    if workSet df = [] then
      { exitCode := 0, tableLoaded := true, output := none }
    else
      { exitCode := 0, tableLoaded := true, output := some (runRows stub df) }

/-! ## Theorems -/

/-! ### Helper lemmas about the merge, the work set and the loop -/

theorem combine_first_none (x : Option String) : combine_first x none = x := by
  cases x <;> rfl

theorem combine_first_of_some (x y : Option String) (v : String) (h : x = some v) :
    combine_first x y = some v := by
  subst h; rfl

theorem mergeRow_none (r : Row) : mergeRow r none = r := by
  cases r
  simp [mergeRow, combine_first_none]

theorem mergeCheckpoint_getElem? (fresh : List Row) (ck : List CkRow) (i : Nat) :
    (mergeCheckpoint fresh ck)[i]? = (fresh[i]?).map (fun r => mergeRow r ck[i]?) := by
  induction fresh generalizing ck i with
  | nil => simp [mergeCheckpoint]
  | cons r rs ih =>
    cases ck with
    | nil =>
      cases i with
      | zero => simp [mergeCheckpoint]
      | succ j => simpa [mergeCheckpoint] using ih [] j
    | cons c cs =>
      cases i with
      | zero => simp [mergeCheckpoint]
      | succ j => simpa [mergeCheckpoint] using ih cs j

theorem mergeCheckpoint_length (fresh : List Row) (ck : List CkRow) :
    (mergeCheckpoint fresh ck).length = fresh.length := by
  induction fresh generalizing ck with
  | nil => simp [mergeCheckpoint]
  | cons r rs ih =>
    cases ck with
    | nil => simp [mergeCheckpoint, ih]
    | cons c cs => simp [mergeCheckpoint, ih]

theorem runRowsFrom_getElem? (stub : Stub) (t : List Row) (i j : Nat) :
    (runRowsFrom stub i t)[j]? =
      (t[j]?).map (fun r => if needsWork r then processRow stub (i + j) r else r) := by
  induction t generalizing i j with
  | nil => simp [runRowsFrom]
  | cons r rs ih =>
    cases j with
    | zero => simp [runRowsFrom]
    | succ j =>
      rw [show i + (j + 1) = (i + 1) + j by omega]
      simpa [runRowsFrom] using ih (i + 1) j

theorem runRows_getElem? (stub : Stub) (t : List Row) (j : Nat) :
    (runRows stub t)[j]? =
      (t[j]?).map (fun r => if needsWork r then processRow stub j r else r) := by
  simpa [runRows] using runRowsFrom_getElem? stub t 0 j

theorem runRowsFrom_length (stub : Stub) (i : Nat) (t : List Row) :
    (runRowsFrom stub i t).length = t.length := by
  induction t generalizing i with
  | nil => rfl
  | cons r rs ih => simp [runRowsFrom, ih]

theorem toCheckpoint_getElem? (t : List Row) (i : Nat) :
    (toCheckpoint t)[i]? =
      (t[i]?).map (fun r => CkRow.mk r.title_cn r.cn_abstract) := by
  simp [toCheckpoint]

theorem workSetFrom_eq_nil (t : List Row) (i : Nat) :
    workSetFrom i t = [] ↔ ∀ r ∈ t, needsWork r = false := by
  induction t generalizing i with
  | nil => simp [workSetFrom]
  | cons r rs ih =>
    cases hw : needsWork r with
    | true => simp [workSetFrom, hw]
    | false => simp [workSetFrom, hw, ih (i + 1)]

theorem mem_workSetFrom (t : List Row) (i j : Nat) :
    j ∈ workSetFrom i t ↔ ∃ k, i + k = j ∧ (t[k]?).map needsWork = some true := by
  induction t generalizing i with
  | nil => simp [workSetFrom]
  | cons r rs ih =>
    cases hw : needsWork r with
    | true =>
      simp only [workSetFrom, hw, if_true, List.mem_cons, ih (i + 1)]
      constructor
      · rintro (rfl | ⟨k, hk, hget⟩)
        · exact ⟨0, by omega, by simp [hw]⟩
        · exact ⟨k + 1, by omega, by simpa using hget⟩
      · rintro ⟨k, hk, hget⟩
        cases k with
        | zero => exact Or.inl (by omega)
        | succ k => exact Or.inr ⟨k, by omega, by simpa using hget⟩
    | false =>
      simp only [workSetFrom, hw, Bool.false_eq_true, if_false, ih (i + 1)]
      constructor
      · rintro ⟨k, hk, hget⟩
        exact ⟨k + 1, by omega, by simpa using hget⟩
      · rintro ⟨k, hk, hget⟩
        cases k with
        | zero =>
          exfalso
          simp [hw] at hget
        | succ k => exact ⟨k, by omega, by simpa using hget⟩

theorem mem_workSet (t : List Row) (j : Nat) :
    j ∈ workSet t ↔ (t[j]?).map needsWork = some true := by
  rw [workSet, mem_workSetFrom]
  constructor
  · rintro ⟨k, hk, hget⟩
    have hkj : k = j := by omega
    subst hkj
    exact hget
  · intro h
    exact ⟨j, by omega, h⟩

/-! ### Helper lemmas about one row's processing -/

theorem processRow_title (stub : Stub) (i : Nat) (r : Row) :
    (processRow stub i r).title = r.title := by
  simp only [processRow]
  repeat' split
  all_goals rfl

theorem processRow_abstract (stub : Stub) (i : Nat) (r : Row) :
    (processRow stub i r).abstract = r.abstract := by
  simp only [processRow]
  repeat' split
  all_goals rfl

theorem processRow_title_cn_of_some (stub : Stub) (i : Nat) (r : Row) (v : String)
    (h : r.title_cn = some v) : (processRow stub i r).title_cn = some v := by
  have hguard : ¬(r.title_cn = none ∧ r.title ≠ none) := by
    rintro ⟨hn, -⟩
    rw [h] at hn
    exact Option.noConfusion hn
  simp only [processRow]
  rw [if_neg hguard]
  repeat' split
  all_goals exact h

theorem processRow_cn_abstract_of_some (stub : Stub) (i : Nat) (r : Row) (v : String)
    (h : r.cn_abstract = some v) : (processRow stub i r).cn_abstract = some v := by
  have hguard : ¬(r.cn_abstract = none ∧ r.abstract ≠ none) := by
    rintro ⟨hn, -⟩
    rw [h] at hn
    exact Option.noConfusion hn
  simp only [processRow]
  rw [if_neg hguard]
  repeat' split
  all_goals exact h

theorem processRow_abstract_skip (stub : Stub) (i : Nat) (r : Row)
    (h : r.abstract = none) : (processRow stub i r).cn_abstract = r.cn_abstract := by
  have hguard : ¬(r.cn_abstract = none ∧ r.abstract ≠ none) := by
    rintro ⟨-, hn⟩
    exact hn h
  simp only [processRow]
  rw [if_neg hguard]
  repeat' split
  all_goals rfl

theorem processRow_title_fail (stub : Stub) (i : Nat) (r : Row)
    (h1 : r.title_cn = none) (h2 : r.title ≠ none)
    (he : stub i TaskType.title = Except.error ()) :
    (processRow stub i r).title_cn = some fail_marker := by
  simp only [processRow]
  rw [if_pos (show r.title_cn = none ∧ r.title ≠ none from ⟨h1, h2⟩), he]
  repeat' split
  all_goals first | rfl | simp_all

theorem processRow_abstract_fail (stub : Stub) (i : Nat) (r : Row)
    (h1 : r.cn_abstract = none) (h2 : r.abstract ≠ none)
    (he : stub i TaskType.abstract = Except.error ()) :
    (processRow stub i r).cn_abstract = some fail_marker := by
  simp only [processRow]
  rw [if_pos (show r.cn_abstract = none ∧ r.abstract ≠ none from ⟨h1, h2⟩), he]

theorem processRow_abstract_ok (stub : Stub) (i : Nat) (r : Row) (s : String)
    (h1 : r.cn_abstract = none) (h2 : r.abstract ≠ none)
    (hs : stub i TaskType.abstract = Except.ok (some s)) (hne : s ≠ "") :
    (processRow stub i r).cn_abstract = some (sanitizeAbstract s) := by
  have ht : truthy (some s) = true := by
    simp [truthy, hne]
  simp only [processRow]
  rw [if_pos (show r.cn_abstract = none ∧ r.abstract ≠ none from ⟨h1, h2⟩), hs]
  simp only [ht, if_true, Option.getD_some]

theorem processRow_title_cn_ne_none (stub : Stub) (i : Nat) (r : Row)
    (ht : r.title_cn = none → r.title ≠ none) :
    (processRow stub i r).title_cn ≠ none := by
  rcases hcn : r.title_cn with _ | v
  · simp only [processRow]
    rw [if_pos (show r.title_cn = none ∧ r.title ≠ none from ⟨hcn, ht hcn⟩)]
    repeat' split
    all_goals simp
  · rw [processRow_title_cn_of_some stub i r v hcn]
    exact Option.noConfusion

theorem processRow_cn_abstract_ne_none (stub : Stub) (i : Nat) (r : Row)
    (ha : r.cn_abstract = none → r.abstract ≠ none) :
    (processRow stub i r).cn_abstract ≠ none := by
  rcases hcn : r.cn_abstract with _ | v
  · simp only [processRow]
    rw [if_pos (show r.cn_abstract = none ∧ r.abstract ≠ none from ⟨hcn, ha hcn⟩)]
    repeat' split
    all_goals simp
  · rw [processRow_cn_abstract_of_some stub i r v hcn]
    exact Option.noConfusion

/-! ### Helper lemmas about sanitization -/

/-- For a single-character pattern and a single-character replacement,
Python's `str.replace` is the character-wise substitution. -/
theorem pyReplace_single (p rr : Char) (s : List Char) :
    pyReplace [p] [rr] s = s.map (fun c => if c = p then rr else c) := by
  induction s with
  | nil => simp [pyReplace]
  | cons c cs ih =>
    by_cases hc : c = p
    · subst hc
      have hpre : ([c].isPrefixOf (c :: cs)) = true := by
        simp [List.isPrefixOf]
      simp [pyReplace, hpre, ih]
    · have hpre : ([p].isPrefixOf (c :: cs)) = false := by
        simp [List.isPrefixOf]
        exact fun h => absurd h.symm hc
      simp [pyReplace, hpre, hc, ih]

theorem sanitizeAbstract_eq_map (s : String) :
    sanitizeAbstract s = String.mk (s.data.map sanitizeChar) := by
  unfold sanitizeAbstract
  rw [pyReplace_single, pyReplace_single, pyReplace_single,
    List.map_map, List.map_map]
  have hfun : (((fun c => if c = ',' then '，' else c) ∘
      (fun c => if c = '\n' then ' ' else c)) ∘
      (fun c => if c = '\"' then '\'' else c)) = sanitizeChar := by
    funext c
    simp only [Function.comp, sanitizeChar]
    by_cases h1 : c = '\"'
    · subst h1
      decide
    · by_cases h2 : c = '\n'
      · subst h2
        decide
      · by_cases h3 : c = ','
        · subst h3
          decide
        · simp [h1, h2, h3]
  rw [hfun]

/-- For a unit of work failing on every attempt with failure `e k` at
attempt `k`, the whole trace is computable in closed form. -/
theorem runRetry_alwaysFails {E A : Type} (e : Nat → E)
    (f : Nat → Except E A) (h : ∀ k, f k = Except.error (e k)) :
    runRetry f = { result := Except.error (e 5), waits := [4, 4, 8, 16], calls := 5 } := by
  simp only [runRetry, retryAux, h]
  simp [translateWait, waitExponential]

/-- C2: for a unit of work failing on every attempt, the retrier invokes it
exactly 5 times, the caller observes the 5th attempt's failure unchanged,
and every inter-attempt wait lies in [4, 60] seconds with the wait sequence
monotonically non-decreasing. -/
theorem retry_exhaustion {E A : Type} (e : Nat → E) (f : Nat → Except E A)
    (h : ∀ k, f k = Except.error (e k)) :
    (runRetry f).calls = 5 ∧
    (runRetry f).result = Except.error (e 5) ∧
    (∀ w ∈ (runRetry f).waits, 4 ≤ w ∧ w ≤ 60) ∧
    (runRetry f).waits.Chain' (· ≤ ·) := by
  rw [runRetry_alwaysFails e f h]
  refine ⟨rfl, rfl, ?_, ?_⟩
  · show ∀ w ∈ [4, 4, 8, 16], 4 ≤ w ∧ w ≤ 60
    decide
  · show List.Chain' (· ≤ ·) [4, 4, 8, 16]
    norm_num [List.chain'_cons]

/-- Witness for C2 at the concrete always-failing unit of work
`fun k => Except.error k`. -/
theorem retry_exhaustion_witness :
    (runRetry (fun k => (Except.error k : Except Nat Unit))).calls = 5 ∧
    (runRetry (fun k => (Except.error k : Except Nat Unit))).result = Except.error 5 ∧
    (∀ w ∈ (runRetry (fun k => (Except.error k : Except Nat Unit))).waits,
      4 ≤ w ∧ w ≤ 60) ∧
    (runRetry (fun k => (Except.error k : Except Nat Unit))).waits.Chain' (· ≤ ·) :=
  retry_exhaustion id (fun k => Except.error k) (fun _ => rfl)

/-- C7 counterexample: the wait schedule of an always-failing run is
[4, 4, 8, 16]; no alignment of the claimed formula `min(60, 4 * 2^k)`
(0-based or 1-based attempt index) produces it — the second wait is 4, not
`min 60 (4 * 2 ^ 1) = 8` nor `min 60 (4 * 2 ^ 2) = 16` — so the delay does
not double away from the floor on each attempt. -/
theorem backoff_formula_counterexample :
    (runRetry (fun k => (Except.error k : Except Nat Unit))).waits = [4, 4, 8, 16] ∧
    ¬ (∀ j, ∀ h : j < 4,
        ((runRetry (fun k => (Except.error k : Except Nat Unit))).waits.get
          ⟨j, h⟩ = min 60 (4 * 2 ^ j))) ∧
    ¬ (∀ j, ∀ h : j < 4,
        ((runRetry (fun k => (Except.error k : Except Nat Unit))).waits.get
          ⟨j, h⟩ = min 60 (4 * 2 ^ (j + 1)))) := by
  refine ⟨rfl, fun hc => ?_, fun hc => ?_⟩
  · have := hc 1 (by decide)
    revert this
    decide
  · have := hc 1 (by decide)
    revert this
    decide

/-- C7 amended: tenacity's `wait_exponential(multiplier=1, min=4, max=60)`
makes the wait after the k-th failed attempt (1-based)
`max 4 (min (2 ^ k) 60)`: the raw delay `2^k` is clamped to the floor 4 and
the cap 60, so the schedule for an always-failing unit is [4, 4, 8, 16] —
it starts at the floor, repeats 4 once, then doubles, never exceeding 60. -/
theorem backoff_schedule {E A : Type} (e : Nat → E) (f : Nat → Except E A)
    (h : ∀ k, f k = Except.error (e k)) :
    (runRetry f).waits = (List.range 4).map (fun j => max 4 (min (2 ^ (j + 1)) 60)) ∧
    (runRetry f).waits = [4, 4, 8, 16] := by
  rw [runRetry_alwaysFails e f h]
  exact ⟨rfl, rfl⟩

/-- Witness for the amended C7 at the concrete always-failing unit of work. -/
theorem backoff_schedule_witness :
    (runRetry (fun k => (Except.error k : Except Nat Unit))).waits =
      (List.range 4).map (fun j => max 4 (min (2 ^ (j + 1)) 60)) ∧
    (runRetry (fun k => (Except.error k : Except Nat Unit))).waits = [4, 4, 8, 16] :=
  backoff_schedule id (fun k => Except.error k) (fun _ => rfl)


/-! ### C1, C3: merge and write-once properties -/

theorem combine_first_ne_none (x y : Option String) (hy : y ≠ none) :
    combine_first x y ≠ none := by
  cases x
  · simpa [combine_first] using hy
  · simp [combine_first]

theorem needsWork_eq_false_iff (r : Row) :
    needsWork r = false ↔ r.title_cn ≠ none ∧ r.cn_abstract ≠ none := by
  cases ht : r.title_cn <;> cases ha : r.cn_abstract <;>
    simp [needsWork, ht, ha]

/-- C1 (checkpoint merge correctness): for each tracked translated column
(`title_cn`, `cn_abstract`) and each row position present in both tables,
the merged cell equals the checkpoint's cell when the fresh cell is null
and the checkpoint's cell is non-null, and equals the fresh cell otherwise. -/
theorem merge_cell_correct (fresh : List Row) (ck : List CkRow) (i : Nat)
    (r : Row) (c : CkRow) (hf : fresh[i]? = some r) (hc : ck[i]? = some c) :
    ∃ mr, (mergeCheckpoint fresh ck)[i]? = some mr ∧
      ((r.title_cn = none ∧ c.title_cn ≠ none) → mr.title_cn = c.title_cn) ∧
      (¬(r.title_cn = none ∧ c.title_cn ≠ none) → mr.title_cn = r.title_cn) ∧
      ((r.cn_abstract = none ∧ c.cn_abstract ≠ none) → mr.cn_abstract = c.cn_abstract) ∧
      (¬(r.cn_abstract = none ∧ c.cn_abstract ≠ none) → mr.cn_abstract = r.cn_abstract) := by
  refine ⟨mergeRow r (some c), ?_, ?_, ?_, ?_, ?_⟩
  · rw [mergeCheckpoint_getElem?, hf, hc]
    rfl
  · rintro ⟨h1, -⟩
    simp [mergeRow, combine_first, h1]
  · intro hn
    rcases ht : r.title_cn with _ | v
    · have hcnone : c.title_cn = none := by
        by_contra hcn
        exact hn ⟨ht, hcn⟩
      simp [mergeRow, combine_first, ht, hcnone]
    · simp [mergeRow, combine_first, ht]
  · rintro ⟨h1, -⟩
    simp [mergeRow, combine_first, h1]
  · intro hn
    rcases ha : r.cn_abstract with _ | v
    · have hcnone : c.cn_abstract = none := by
        by_contra hcn
        exact hn ⟨ha, hcn⟩
      simp [mergeRow, combine_first, ha, hcnone]
    · simp [mergeRow, combine_first, ha]

/-- Witness for C1: fresh row with null `title_cn` and non-null
`cn_abstract`, checkpoint row with both cells non-null. -/
theorem merge_cell_correct_witness :
    ∃ mr, (mergeCheckpoint
        [{ title := some "t", abstract := some "a", title_cn := none,
           cn_abstract := some "kept" }]
        [{ title_cn := some "T", cn_abstract := some "C" }])[0]? = some mr ∧
      ((none = (none : Option String) ∧ some "T" ≠ (none : Option String)) →
        mr.title_cn = some "T") ∧
      (¬(none = (none : Option String) ∧ some "T" ≠ (none : Option String)) →
        mr.title_cn = none) ∧
      ((some "kept" = (none : Option String) ∧ some "C" ≠ (none : Option String)) →
        mr.cn_abstract = some "C") ∧
      (¬(some "kept" = (none : Option String) ∧ some "C" ≠ (none : Option String)) →
        mr.cn_abstract = some "kept") :=
  merge_cell_correct
    [{ title := some "t", abstract := some "a", title_cn := none,
       cn_abstract := some "kept" }]
    [{ title_cn := some "T", cn_abstract := some "C" }] 0
    { title := some "t", abstract := some "a", title_cn := none,
      cn_abstract := some "kept" }
    { title_cn := some "T", cn_abstract := some "C" } rfl rfl

/-- C3 (non-null cells are never overwritten): once `title_cn` or
`cn_abstract` holds a non-null value, the checkpoint merge keeps it (for
every checkpoint) and the driver loop keeps it — and since this holds for
every translator stub, the cell's final value does not depend on the
translator at all: a re-run never re-attempts a sentinel-marked (non-null)
cell. -/
theorem nonnull_cells_never_overwritten (stub : Stub) (t : List Row)
    (ck : List CkRow) (i : Nat) (r : Row) (hr : t[i]? = some r) :
    (∀ v, r.title_cn = some v →
      ((mergeCheckpoint t ck)[i]?).map Row.title_cn = some (some v) ∧
      ((runRows stub t)[i]?).map Row.title_cn = some (some v)) ∧
    (∀ v, r.cn_abstract = some v →
      ((mergeCheckpoint t ck)[i]?).map Row.cn_abstract = some (some v) ∧
      ((runRows stub t)[i]?).map Row.cn_abstract = some (some v)) := by
  constructor
  · intro v hv
    constructor
    · rw [mergeCheckpoint_getElem?, hr]
      simp [mergeRow, combine_first_of_some _ _ v hv]
    · rw [runRows_getElem?, hr]
      by_cases hw : needsWork r = true
      · simp [hw, processRow_title_cn_of_some stub i r v hv]
      · simp [hw, hv]
  · intro v hv
    constructor
    · rw [mergeCheckpoint_getElem?, hr]
      simp [mergeRow, combine_first_of_some _ _ v hv]
    · rw [runRows_getElem?, hr]
      by_cases hw : needsWork r = true
      · simp [hw, processRow_cn_abstract_of_some stub i r v hv]
      · simp [hw, hv]

/-- Witness for C3: a row whose `title_cn` already holds a sentinel and
whose `cn_abstract` holds text keeps both under merge and loop. -/
theorem nonnull_cells_never_overwritten_witness :
    (∀ v, some "[标题翻译失败]" = some v →
      ((mergeCheckpoint
          [{ title := some "t", abstract := some "a",
             title_cn := some "[标题翻译失败]", cn_abstract := some "done" }]
          [{ title_cn := some "T", cn_abstract := some "C" }])[0]?).map Row.title_cn =
        some (some v) ∧
      ((runRows (fun _ _ => Except.ok (some "fresh"))
          [{ title := some "t", abstract := some "a",
             title_cn := some "[标题翻译失败]", cn_abstract := some "done" }])[0]?).map
        Row.title_cn = some (some v)) ∧
    (∀ v, some "done" = some v →
      ((mergeCheckpoint
          [{ title := some "t", abstract := some "a",
             title_cn := some "[标题翻译失败]", cn_abstract := some "done" }]
          [{ title_cn := some "T", cn_abstract := some "C" }])[0]?).map Row.cn_abstract =
        some (some v) ∧
      ((runRows (fun _ _ => Except.ok (some "fresh"))
          [{ title := some "t", abstract := some "a",
             title_cn := some "[标题翻译失败]", cn_abstract := some "done" }])[0]?).map
        Row.cn_abstract = some (some v)) :=
  nonnull_cells_never_overwritten (fun _ _ => Except.ok (some "fresh"))
    [{ title := some "t", abstract := some "a",
       title_cn := some "[标题翻译失败]", cn_abstract := some "done" }]
    [{ title_cn := some "T", cn_abstract := some "C" }] 0
    { title := some "t", abstract := some "a",
      title_cn := some "[标题翻译失败]", cn_abstract := some "done" } rfl

/-! ### C5, C6: error containment and sanitization -/

/-- C5 (per-row error containment): when the retrier exhausts its budget on
a field, the driver stores the distinct sentinel `fail_marker` in that cell;
the loop still yields a table of the same length with every row present —
no per-row failure aborts the run — and, startup checks passed, the process
exit code is 0 whatever the translator does. -/
theorem per_row_error_containment (stub : Stub) (t : List Row) (i : Nat)
    (r : Row) (hr : t[i]? = some r) :
    (runRows stub t).length = t.length ∧
    (∀ j, j < t.length → ((runRows stub t)[j]?).isSome = true) ∧
    (r.title_cn = none → r.title ≠ none →
      stub i TaskType.title = Except.error () →
      ((runRows stub t)[i]?).map Row.title_cn = some (some fail_marker)) ∧
    (r.cn_abstract = none → r.abstract ≠ none →
      stub i TaskType.abstract = Except.error () →
      ((runRows stub t)[i]?).map Row.cn_abstract = some (some fail_marker)) ∧
    (∀ ck, (runScript true true stub t ck).exitCode = 0) := by
  refine ⟨runRowsFrom_length stub 0 t, ?_, ?_, ?_, ?_⟩
  · intro j hj
    rw [runRows_getElem?, List.getElem?_eq_getElem hj]
    rfl
  · intro h1 h2 he
    have hw : needsWork r = true := by
      simp [needsWork, h1]
    rw [runRows_getElem?, hr]
    simp [hw, processRow_title_fail stub i r h1 h2 he]
  · intro h1 h2 he
    have hw : needsWork r = true := by
      simp [needsWork, h1]
    rw [runRows_getElem?, hr]
    simp [hw, processRow_abstract_fail stub i r h1 h2 he]
  · intro ck
    unfold runScript
    cases ck <;> simp only [Bool.not_true, Bool.false_eq_true, if_false] <;>
      split <;> rfl

/-- Witness for C5: one-row table, translator failing on both fields. -/
theorem per_row_error_containment_witness :
    (runRows (fun _ _ => Except.error ())
        [{ title := some "t", abstract := some "a", title_cn := none,
           cn_abstract := none }]).length = 1 ∧
    (∀ j, j < 1 → ((runRows (fun _ _ => Except.error ())
        [{ title := some "t", abstract := some "a", title_cn := none,
           cn_abstract := none }])[j]?).isSome = true) ∧
    ((none : Option String) = none → some "t" ≠ (none : Option String) →
      (fun _ _ => (Except.error () : Except Unit (Option String))) 0 TaskType.title =
        Except.error () →
      ((runRows (fun _ _ => Except.error ())
          [{ title := some "t", abstract := some "a", title_cn := none,
             cn_abstract := none }])[0]?).map Row.title_cn = some (some fail_marker)) ∧
    ((none : Option String) = none → some "a" ≠ (none : Option String) →
      (fun _ _ => (Except.error () : Except Unit (Option String))) 0 TaskType.abstract =
        Except.error () →
      ((runRows (fun _ _ => Except.error ())
          [{ title := some "t", abstract := some "a", title_cn := none,
             cn_abstract := none }])[0]?).map Row.cn_abstract = some (some fail_marker)) ∧
    (∀ ck, (runScript true true (fun _ _ => Except.error ())
        [{ title := some "t", abstract := some "a", title_cn := none,
           cn_abstract := none }] ck).exitCode = 0) :=
  per_row_error_containment (fun _ _ => Except.error ())
    [{ title := some "t", abstract := some "a", title_cn := none,
       cn_abstract := none }] 0
    { title := some "t", abstract := some "a", title_cn := none,
      cn_abstract := none } rfl

/-- C6 (abstract sanitization): a successfully translated non-empty
abstract is stored as the translated text with every double quote replaced
by a single quote, every newline by a space and every comma by a full-width
comma, character by character — no other characters change. -/
theorem abstract_sanitization (stub : Stub) (i : Nat) (r : Row) (s : String)
    (h1 : r.cn_abstract = none) (h2 : r.abstract ≠ none)
    (hs : stub i TaskType.abstract = Except.ok (some s)) (hne : s ≠ "") :
    (processRow stub i r).cn_abstract =
      some (String.mk (s.data.map sanitizeChar)) := by
  rw [processRow_abstract_ok stub i r s h1 h2 hs hne, sanitizeAbstract_eq_map]

/-- Witness for C6: a translated abstract containing a double quote, a
newline and a comma is stored with all three replaced. -/
theorem abstract_sanitization_witness :
    (processRow (fun _ _ => Except.ok (some "a\"b\nc,d")) 0
        { title := some "t", abstract := some "a", title_cn := some "T",
          cn_abstract := none }).cn_abstract =
      some (String.mk ("a\"b\nc,d".data.map sanitizeChar)) ∧
    String.mk ("a\"b\nc,d".data.map sanitizeChar) = "a\'b c，d" := by
  constructor
  · exact abstract_sanitization (fun _ _ => Except.ok (some "a\"b\nc,d")) 0
      { title := some "t", abstract := some "a", title_cn := some "T",
        cn_abstract := none } "a\"b\nc,d" rfl (by simp) rfl (by decide)
  · decide


/-! ### C4: idempotence across runs -/

theorem resolved_after_loop (stub : Stub) (j : Nat) (r : Row)
    (hrt : r.title_cn = none → r.title ≠ none)
    (hra : r.cn_abstract = none → r.abstract ≠ none) :
    (if needsWork r then processRow stub j r else r).title_cn ≠ none ∧
    (if needsWork r then processRow stub j r else r).cn_abstract ≠ none := by
  by_cases hw : needsWork r = true
  · rw [if_pos hw]
    exact ⟨processRow_title_cn_ne_none stub j r hrt,
      processRow_cn_abstract_ne_none stub j r hra⟩
  · rw [if_neg hw]
    exact (needsWork_eq_false_iff r).mp (by simpa using hw)

/-- C4 counterexample: idempotence does not hold for every input table. A
one-row table whose `title` and `abstract` are both null is left untouched
by the first (checkpoint-less) run, so the second run — using the first
run's output as its checkpoint — still has work set [0], not the empty
work set the claim requires (with a translator stub that always succeeds). -/
theorem idempotence_counterexample :
    workSet (mergeCheckpoint
      [{ title := none, abstract := none, title_cn := none, cn_abstract := none }]
      (toCheckpoint (runPipeline (fun _ _ => Except.ok (some "X"))
        [{ title := none, abstract := none, title_cn := none,
           cn_abstract := none }] none))) = [0] ∧
    workSet (mergeCheckpoint
      [{ title := none, abstract := none, title_cn := none, cn_abstract := none }]
      (toCheckpoint (runPipeline (fun _ _ => Except.ok (some "X"))
        [{ title := none, abstract := none, title_cn := none,
           cn_abstract := none }] none))) ≠ [] := by
  constructor
  · rfl
  · intro h
    exact absurd h (by decide)

/-- C4 amended: idempotence holds whenever every row that needs a
translation has the corresponding source field present — if for every row
a null `title_cn` implies a non-null `title` and a null `cn_abstract`
implies a non-null `abstract`, then running once with no checkpoint (any
translator stub) and feeding the output back as the checkpoint of a second
run yields an empty work set, and the second run terminates immediately
with the fully-translated report, writing nothing. -/
theorem idempotence_amended (stub stub2 : Stub) (source : List Row)
    (h : ∀ r ∈ source, (r.title_cn = none → r.title ≠ none) ∧
      (r.cn_abstract = none → r.abstract ≠ none)) :
    workSet (mergeCheckpoint source
      (toCheckpoint (runPipeline stub source none))) = [] ∧
    runScript true true stub2 source
        (some (toCheckpoint (runPipeline stub source none))) =
      { exitCode := 0, tableLoaded := true, output := none } := by
  have hws : workSet (mergeCheckpoint source
      (toCheckpoint (runPipeline stub source none))) = [] := by
    rw [List.eq_nil_iff_forall_not_mem]
    intro j
    rw [mem_workSet, mergeCheckpoint_getElem?]
    rcases hsrc : source[j]? with _ | r
    · simp [hsrc]
    · have hmem : r ∈ source := List.getElem?_mem hsrc
      obtain ⟨hrt, hra⟩ := h r hmem
      have hpipe : runPipeline stub source none = runRows stub source := rfl
      rw [toCheckpoint_getElem?, hpipe, runRows_getElem?, hsrc]
      obtain ⟨hpt, hpa⟩ := resolved_after_loop stub j r hrt hra
      intro hcontra
      have hmerged : needsWork (mergeRow r (some
          (CkRow.mk (if needsWork r then processRow stub j r else r).title_cn
            (if needsWork r then processRow stub j r else r).cn_abstract))) = true := by
        simpa using hcontra
      rw [← Bool.not_eq_false] at hmerged
      apply hmerged
      rw [needsWork_eq_false_iff]
      constructor
      · exact combine_first_ne_none _ _ hpt
      · exact combine_first_ne_none _ _ hpa
  refine ⟨hws, ?_⟩
  unfold runScript
  simp only [Bool.not_true, Bool.false_eq_true, if_false]
  rw [if_pos hws]

/-- Witness for the amended C4: three-row sample table (row 0 fully
pre-translated, rows 1-2 untranslated with sources present), always-
succeeding stub. -/
theorem idempotence_amended_witness :
    workSet (mergeCheckpoint
      [{ title := some "t0", abstract := some "a0", title_cn := some "T0",
         cn_abstract := some "A0" },
       { title := some "t1", abstract := some "a1", title_cn := none,
         cn_abstract := none },
       { title := some "t2", abstract := some "a2", title_cn := none,
         cn_abstract := none }]
      (toCheckpoint (runPipeline (fun _ _ => Except.ok (some "译"))
        [{ title := some "t0", abstract := some "a0", title_cn := some "T0",
           cn_abstract := some "A0" },
         { title := some "t1", abstract := some "a1", title_cn := none,
           cn_abstract := none },
         { title := some "t2", abstract := some "a2", title_cn := none,
           cn_abstract := none }] none))) = [] ∧
    runScript true true (fun _ _ => Except.ok (some "译"))
        [{ title := some "t0", abstract := some "a0", title_cn := some "T0",
           cn_abstract := some "A0" },
         { title := some "t1", abstract := some "a1", title_cn := none,
           cn_abstract := none },
         { title := some "t2", abstract := some "a2", title_cn := none,
           cn_abstract := none }]
        (some (toCheckpoint (runPipeline (fun _ _ => Except.ok (some "译"))
          [{ title := some "t0", abstract := some "a0", title_cn := some "T0",
             cn_abstract := some "A0" },
           { title := some "t1", abstract := some "a1", title_cn := none,
             cn_abstract := none },
           { title := some "t2", abstract := some "a2", title_cn := none,
             cn_abstract := none }] none))) =
      { exitCode := 0, tableLoaded := true, output := none } :=
  idempotence_amended (fun _ _ => Except.ok (some "译"))
    (fun _ _ => Except.ok (some "译"))
    [{ title := some "t0", abstract := some "a0", title_cn := some "T0",
       cn_abstract := some "A0" },
     { title := some "t1", abstract := some "a1", title_cn := none,
       cn_abstract := none },
     { title := some "t2", abstract := some "a2", title_cn := none,
       cn_abstract := none }]
    (by decide)

/-! ### C8: missing input file -/

/-- C8 counterexample: with the credential present but the input file
missing, the script aborts before any processing, but the process exit
code is 0 — the claim's "non-zero exit code" is false at this input. -/
theorem missing_input_exit_counterexample :
    (runScript true false (fun _ _ => Except.ok none) [] none).exitCode = 0 ∧
    ¬ (runScript true false (fun _ _ => Except.ok none) [] none).exitCode ≠ 0 := by
  constructor
  · rfl
  · intro hn
    exact hn rfl

/-- C8 amended: a missing input file still aborts before any processing —
nothing is loaded, no translation runs, nothing is written — but the
process exits with code 0, because the missing-file branch is a plain
`return` from `main`; only the missing-credential startup check exits with
the non-zero code 1. -/
theorem missing_input_aborts (stub : Stub) (source : List Row)
    (ck : Option (List CkRow)) :
    runScript true false stub source ck =
      { exitCode := 0, tableLoaded := false, output := none } ∧
    runScript false false stub source ck =
      { exitCode := 1, tableLoaded := false, output := none } := by
  constructor <;> rfl

/-! ### C9: merge order sensitivity -/

/-- C9 counterexample: the merge aligns rows by position, not by a
persistent identifier, so permuting the checkpoint's rows changes the
per-row result: with two fresh rows whose `title_cn` is null, swapping the
two checkpoint rows gives row 0 the translation "B" that belonged to row 1. -/
theorem merge_order_counterexample :
    ([{ title_cn := some "B", cn_abstract := none },
      { title_cn := some "A", cn_abstract := none }] : List CkRow).Perm
      [{ title_cn := some "A", cn_abstract := none },
       { title_cn := some "B", cn_abstract := none }] ∧
    mergeCheckpoint
        [{ title := some "t1", abstract := some "a1", title_cn := none,
           cn_abstract := none },
         { title := some "t2", abstract := some "a2", title_cn := none,
           cn_abstract := none }]
        [{ title_cn := some "A", cn_abstract := none },
         { title_cn := some "B", cn_abstract := none }] ≠
      mergeCheckpoint
        [{ title := some "t1", abstract := some "a1", title_cn := none,
           cn_abstract := none },
         { title := some "t2", abstract := some "a2", title_cn := none,
           cn_abstract := none }]
        [{ title_cn := some "B", cn_abstract := none },
         { title_cn := some "A", cn_abstract := none }] ∧
    ((mergeCheckpoint
        [{ title := some "t1", abstract := some "a1", title_cn := none,
           cn_abstract := none },
         { title := some "t2", abstract := some "a2", title_cn := none,
           cn_abstract := none }]
        [{ title_cn := some "B", cn_abstract := none },
         { title_cn := some "A", cn_abstract := none }])[0]?).map Row.title_cn =
      some (some "B") := by
  refine ⟨List.Perm.swap _ _ _, ?_, rfl⟩
  intro h
  exact absurd h (by decide)

/-- C9 amended: the merge is positional. A row's already-translated
(non-null) cells are preserved under any permutation of the checkpoint's
rows, but a null cell is filled from the checkpoint row at the same
position, so identical row order (which a prior run's output has, being
written in table order) is required for the merged result to be the same
per row. -/
theorem merge_positional (fresh : List Row) (ck ck2 : List CkRow)
    (_hperm : ck.Perm ck2) (i : Nat) (r : Row) (hf : fresh[i]? = some r) :
    (∀ v, r.title_cn = some v →
      ((mergeCheckpoint fresh ck)[i]?).map Row.title_cn = some (some v) ∧
      ((mergeCheckpoint fresh ck2)[i]?).map Row.title_cn = some (some v)) ∧
    (∀ v, r.cn_abstract = some v →
      ((mergeCheckpoint fresh ck)[i]?).map Row.cn_abstract = some (some v) ∧
      ((mergeCheckpoint fresh ck2)[i]?).map Row.cn_abstract = some (some v)) ∧
    ((mergeCheckpoint fresh ck)[i]?).map Row.title_cn =
      some (combine_first r.title_cn (ck[i]?.bind CkRow.title_cn)) ∧
    ((mergeCheckpoint fresh ck)[i]?).map Row.cn_abstract =
      some (combine_first r.cn_abstract (ck[i]?.bind CkRow.cn_abstract)) := by
  refine ⟨?_, ?_, ?_, ?_⟩
  · intro v hv
    constructor <;>
      · rw [mergeCheckpoint_getElem?, hf]
        simp [mergeRow, combine_first_of_some _ _ v hv]
  · intro v hv
    constructor <;>
      · rw [mergeCheckpoint_getElem?, hf]
        simp [mergeRow, combine_first_of_some _ _ v hv]
  · rw [mergeCheckpoint_getElem?, hf]
    rfl
  · rw [mergeCheckpoint_getElem?, hf]
    rfl

/-- Witness for the amended C9 at the two-row swap instance. -/
theorem merge_positional_witness :
    (∀ v, some "done" = some v →
      ((mergeCheckpoint
          [{ title := some "t1", abstract := some "a1", title_cn := some "done",
             cn_abstract := none }]
          [{ title_cn := some "A", cn_abstract := some "B" }])[0]?).map Row.title_cn =
        some (some v) ∧
      ((mergeCheckpoint
          [{ title := some "t1", abstract := some "a1", title_cn := some "done",
             cn_abstract := none }]
          [{ title_cn := some "A", cn_abstract := some "B" }])[0]?).map Row.title_cn =
        some (some v)) ∧
    (∀ v, (none : Option String) = some v →
      ((mergeCheckpoint
          [{ title := some "t1", abstract := some "a1", title_cn := some "done",
             cn_abstract := none }]
          [{ title_cn := some "A", cn_abstract := some "B" }])[0]?).map Row.cn_abstract =
        some (some v) ∧
      ((mergeCheckpoint
          [{ title := some "t1", abstract := some "a1", title_cn := some "done",
             cn_abstract := none }]
          [{ title_cn := some "A", cn_abstract := some "B" }])[0]?).map Row.cn_abstract =
        some (some v)) ∧
    ((mergeCheckpoint
        [{ title := some "t1", abstract := some "a1", title_cn := some "done",
           cn_abstract := none }]
        [{ title_cn := some "A", cn_abstract := some "B" }])[0]?).map Row.title_cn =
      some (combine_first (some "done")
        (([{ title_cn := some "A", cn_abstract := some "B" }] :
          List CkRow)[0]?.bind CkRow.title_cn)) ∧
    ((mergeCheckpoint
        [{ title := some "t1", abstract := some "a1", title_cn := some "done",
           cn_abstract := none }]
        [{ title_cn := some "A", cn_abstract := some "B" }])[0]?).map Row.cn_abstract =
      some (combine_first (none : Option String)
        (([{ title_cn := some "A", cn_abstract := some "B" }] :
          List CkRow)[0]?.bind CkRow.cn_abstract)) :=
  merge_positional
    [{ title := some "t1", abstract := some "a1", title_cn := some "done",
       cn_abstract := none }]
    [{ title_cn := some "A", cn_abstract := some "B" }]
    [{ title_cn := some "A", cn_abstract := some "B" }]
    (List.Perm.refl _) 0
    { title := some "t1", abstract := some "a1", title_cn := some "done",
      cn_abstract := none } rfl


/-! ### C10: rows with null source fields never resolve -/

/-- C10: a row whose `abstract` and `cn_abstract` are both null is selected
into every run's work set; the driver skips its abstract (the source field
is null), leaving `cn_abstract` null after the loop, so the work set never
becomes empty and the "fully translated" report is never reached, no
matter how many times the pipeline is re-run with the previous output as
checkpoint. -/
theorem null_source_row_never_resolves (stub : Stub) (source : List Row)
    (i : Nat) (r : Row) (hr : source[i]? = some r)
    (hab : r.abstract = none) (hcn : r.cn_abstract = none) :
    ∀ n, i ∈ workSet (runInput stub source n) ∧
      ((runRows stub (runInput stub source n))[i]?).map Row.cn_abstract =
        some none ∧
      workSet (runInput stub source n) ≠ [] := by
  have key : ∀ n, ∃ q, (runInput stub source n)[i]? = some q ∧
      q.abstract = none ∧ q.cn_abstract = none := by
    intro n
    induction n with
    | zero => exact ⟨r, hr, hab, hcn⟩
    | succ n ih =>
      obtain ⟨q, hq, hqa, hqc⟩ := ih
      have hpc : (if needsWork q then processRow stub i q else q).cn_abstract
          = none := by
        by_cases hw : needsWork q = true
        · rw [if_pos hw, processRow_abstract_skip stub i q hqa]
          exact hqc
        · rw [if_neg hw]
          exact hqc
      refine ⟨mergeRow r (some
        (CkRow.mk (if needsWork q then processRow stub i q else q).title_cn
          (if needsWork q then processRow stub i q else q).cn_abstract)),
        ?_, ?_, ?_⟩
      · show (mergeCheckpoint source
            (toCheckpoint (runRows stub (runInput stub source n))))[i]? = _
        rw [mergeCheckpoint_getElem?, hr, toCheckpoint_getElem?,
          runRows_getElem?, hq]
        rfl
      · exact hab
      · show combine_first r.cn_abstract _ = none
        rw [hcn, hpc]
        rfl
  intro n
  obtain ⟨q, hq, hqa, hqc⟩ := key n
  have hw : needsWork q = true := by
    simp [needsWork, hqc]
  refine ⟨?_, ?_, ?_⟩
  · rw [mem_workSet, hq]
    simp [hw]
  · rw [runRows_getElem?, hq]
    simp only [Option.map_some']
    rw [if_pos hw, processRow_abstract_skip stub i q hqa, hqc]
  · intro hempty
    have : i ∈ workSet (runInput stub source n) := by
      rw [mem_workSet, hq]
      simp [hw]
    rw [hempty] at this
    exact List.not_mem_nil i this

/-- Witness for C10 at a one-row table with a null abstract, an
always-succeeding translator, and re-run count 2. -/
theorem null_source_row_never_resolves_witness :
    0 ∈ workSet (runInput (fun _ _ => Except.ok (some "X"))
      [{ title := some "t", abstract := none, title_cn := none,
         cn_abstract := none }] 2) ∧
    ((runRows (fun _ _ => Except.ok (some "X"))
        (runInput (fun _ _ => Except.ok (some "X"))
          [{ title := some "t", abstract := none, title_cn := none,
             cn_abstract := none }] 2))[0]?).map Row.cn_abstract = some none ∧
    workSet (runInput (fun _ _ => Except.ok (some "X"))
      [{ title := some "t", abstract := none, title_cn := none,
         cn_abstract := none }] 2) ≠ [] :=
  null_source_row_never_resolves (fun _ _ => Except.ok (some "X"))
    [{ title := some "t", abstract := none, title_cn := none,
       cn_abstract := none }] 0
    { title := some "t", abstract := none, title_cn := none,
      cn_abstract := none } rfl rfl rfl 2

end Translator
